import Mathlib

/-!
Shallow embedding of the async-ecs core (dispatcher builder, runtime borrow
cell, entity registry, masked component storage, join algebra, lazy update
queue), translated from the Rust sources under `src/`, together with proofs
settling the frozen claims about them.
-/

namespace AsyncEcs

/- ## Helper list operations mirroring `Vec` primitives -/

/-- Insert into a sorted list keeping order (helper for `sortNat`). -/
def sortedInsert (x : Nat) : List Nat → List Nat
  | [] => [x]
  | y :: rest => if x ≤ y then x :: y :: rest else y :: sortedInsert x rest

/-- `Vec::sort` for `Nat` keys: stable ascending sort (insertion sort). -/
def sortNat (l : List Nat) : List Nat :=
  l.foldr sortedInsert []

/-- `Vec::dedup`: remove consecutive duplicates. -/
def dedupSorted : List Nat → List Nat
  | [] => []
  | [x] => [x]
  | x :: y :: rest =>
    if x = y then dedupSorted (y :: rest) else x :: dedupSorted (y :: rest)

/-- Association-list lookup, modelling `HashMap::get` / `Entry` probing. -/
def alookup {α β : Type} [DecidableEq α] : List (α × β) → α → Option β
  | [], _ => none
  | (k, v) :: rest, key => if k = key then some v else alookup rest key

/- ## Dispatcher builder (src/dispatcher/builder.rs) -/

/-- Errors returned by `Builder::add` (src/dispatcher/error.rs). The two
dispatch-loop errors are irrelevant to registration and are omitted. -/
inductive BuildError where
  | nameAlreadyRegistered (name : String)
  | dependencyWasNotFound (name : String)
deriving DecidableEq, Repr

/-- The scheduling-relevant fields of `Item` (builder.rs, `struct Item`).
Resource ids (`ResourceId`) are modelled as `Nat`; system ids (`SystemId`)
as `Nat`. The run closure, name and the completion-signal channel endpoints
carry no scheduling information and are omitted. -/
structure Item where
  reads : List Nat
  writes : List Nat
  dependencies : List Nat
deriving DecidableEq, Repr

/-- `Builder` state (builder.rs): `next_id`, the `items` map and the
`names` map. Rust's `HashMap`s are modelled as insertion-ordered
association lists; every algorithm below either looks keys up or sorts and
deduplicates whatever it collected from iteration, so insertion order is
as good as any hash order. -/
structure Builder where
  nextId : Nat
  items : List (Nat × Item)
  names : List (String × Nat)
deriving DecidableEq, Repr

def Builder.empty : Builder := ⟨0, [], []⟩

/-- `Item.dependencies` of the system registered under id `a`
(`self.items.get(a).unwrap().dependencies`); the source `unwrap`s, so a
missing id is a panic state never reached by the builder — the model
returns the empty list there. -/
def depsOf (items : List (Nat × Item)) (a : Nat) : List Nat :=
  ((alookup items a).map Item.dependencies).getD []

/-- `Builder::depends_on` (builder.rs lines 514-528), fuelled. The source
recurses through `item.dependencies` without a bound; in every
builder-reachable state each dependency id is strictly smaller than the
depending id, so any dependency chain starting at `a` has length at most
`a` and fuel `a` (see `dependsOn`) makes the fuelled version agree with
the source's unbounded recursion. -/
def dependsOnF (items : List (Nat × Item)) : Nat → Nat → Nat → Bool
  | 0, _, _ => false
  | fuel + 1, a, b =>
    let deps := depsOf items a
    deps.contains b || deps.any fun d => dependsOnF items fuel d b

def dependsOn (items : List (Nat × Item)) (a b : Nat) : Bool :=
  dependsOnF items a a b

/-- One pass of `Vec::remove` over a position list sorted descending
(builder.rs lines 505-511: the collected indices are sorted, deduplicated,
reversed and then removed back to front, so each removal happens at a
still-valid position). -/
def removeAt {α : Type} : List α → List Nat → List α
  | l, [] => l
  | l, i :: rest => removeAt (l.eraseIdx i) rest

/-- The positions collected by the double loop of
`Builder::reduce_dependencies`: for every enumerated `(i, a)` and `(j, b)`,
push `j` if `a` depends on `b`, else push `i` if `b` depends on `a`. -/
def reduceIndices (items : List (Nat × Item)) (deps : List Nat) : List Nat :=
  deps.enum.flatMap fun (i, a) =>
    deps.enum.filterMap fun (j, b) =>
      if dependsOn items a b then some j
      else if dependsOn items b a then some i
      else none

/-- `Builder::reduce_dependencies` (builder.rs lines 490-512): sort,
deduplicate, collect redundant positions, then remove them back to front. -/
def reduceDependencies (items : List (Nat × Item)) (deps : List Nat) : List Nat :=
  let deps := dedupSorted (sortNat deps)
  let removeIdcs := (dedupSorted (sortNat (reduceIndices items deps))).reverse
  removeAt deps removeIdcs

/-- Resolution of the explicit dependency names against the `names` map
(builder.rs lines 439-447): `collect::<Result<Vec<_>, _>>` stops at the
first unresolved name. -/
def resolveDeps (names : List (String × Nat)) : List String → Except String (List Nat)
  | [] => Except.ok []
  | n :: rest =>
    match alookup names n with
    | none => Except.error n
    | some id => (resolveDeps names rest).map fun ids => id :: ids

/-- `Builder::add_inner` (builder.rs lines 415-480) followed by the item
insertion done by the closure `f` passed from `Builder::add`.

It mirrors the source statement by statement: generate the id (mutating
`next_id` before anything can fail), claim the name map entry (the
occupied case errors without undoing the id bump), sort and deduplicate
reads and writes, resolve the explicit dependency names (the first
unresolved one errors, leaving the name registered), collect implicit
dependencies from resource conflicts with every already-registered item,
transitively reduce, and store the item. The mutated builder is returned
alongside the optional error, because the Rust method takes `&mut self`
and leaves its partial mutations in place on the error path. -/
def addInner (b : Builder) (name : String) (dependencies : List String)
    (reads writes : List Nat) : Builder × Option BuildError :=
  let id := b.nextId + 1
  let b := { b with nextId := id }
  match alookup b.names name with
  | some _ => (b, some (BuildError.nameAlreadyRegistered name))
  | none =>
    let b := { b with names := b.names ++ [(name, id)] }
    let reads := dedupSorted (sortNat reads)
    let writes := dedupSorted (sortNat writes)
    match resolveDeps b.names dependencies with
    | Except.error n => (b, some (BuildError.dependencyWasNotFound n))
    | Except.ok explicit =>
      let fromReads := reads.flatMap fun r =>
        b.items.filterMap fun kv =>
          if kv.2.writes.contains r then some kv.1 else none
      let fromWrites := writes.flatMap fun w =>
        b.items.filterMap fun kv =>
          if kv.2.reads.contains w || kv.2.writes.contains w then some kv.1 else none
      let deps := reduceDependencies b.items (explicit ++ fromReads ++ fromWrites)
      ({ b with items := b.items ++ [(id, ⟨reads, writes, deps⟩)] }, none)

/-- `Builder::final_systems` (builder.rs lines 482-488): reduce the full
key set of `items`. -/
def finalSystems (b : Builder) : List Nat :=
  reduceDependencies b.items (b.items.map Prod.fst)

/- ## Runtime borrow cell (src/resource/cell.rs)

The cell's `flag: AtomicUsize` is modelled as a `Nat` that the operations
keep below `2^64` (usize is 64-bit here); `usize::MAX = 2^64 - 1` is the
exclusive-writer sentinel. The CAS retry loops are deterministic once the
flag value is given, so each operation is a plain function of the flag. -/

def usizeSize : Nat := 2 ^ 64

def usizeMax : Nat := 2 ^ 64 - 1

/-- `Cell::check_flag_read` (cell.rs lines 114-130): fail if the flag is
the writer sentinel, otherwise increment it. Returns the success bit and
the new flag. -/
def checkFlagRead (flag : Nat) : Bool × Nat :=
  if flag = usizeMax then (false, flag) else (true, flag + 1)

/-- `Cell::check_flag_write` (cell.rs lines 134-138): CAS from 0 to
`usize::MAX`. -/
def checkFlagWrite (flag : Nat) : Bool × Nat :=
  if flag = 0 then (true, usizeMax) else (false, flag)

/-- `Cell::borrow` (cell.rs lines 45-54): `none` models the panic. -/
def cellBorrow (flag : Nat) : Option Nat :=
  let r := checkFlagRead flag
  if r.1 then some r.2 else none

/-- `Cell::borrow_mut` (cell.rs lines 79-88): `none` models the panic. -/
def cellBorrowMut (flag : Nat) : Option Nat :=
  let r := checkFlagWrite flag
  if r.1 then some r.2 else none

/-- `Drop for Ref` (cell.rs lines 229-236): `fetch_sub(1)` with usize
wraparound. -/
def refDrop (flag : Nat) : Nat :=
  (flag + (usizeSize - 1)) % usizeSize

/-- `Clone for Ref` (cell.rs lines 238-250): `fetch_add(1)` with usize
wraparound. -/
def refClone (flag : Nat) : Nat :=
  (flag + 1) % usizeSize

/-- `Drop for RefMut` (cell.rs lines 349-356): store 0. -/
def refMutDrop (_flag : Nat) : Nat := 0

/-- Flag after `n` consecutive successful `borrow()` calls starting from
the free state; `none` if any of them panics. -/
def borrowN (n : Nat) : Option Nat :=
  (fun st => st.bind cellBorrow)^[n] (some 0)

/-- Flag after dropping `n` `Ref` guards. -/
def dropN (n : Nat) (flag : Nat) : Nat :=
  refDrop^[n] flag

/- ## Entity registry (src/entity/entity.rs, src/entity/entities.rs)

`Index` and `Generation` are `u32`; generation arithmetic uses
`wrapping_add`, modelled as addition mod `2^32`. The `BitSet`s (`alive`)
and `AtomicBitSet`s (`raised`, `killed`) are modelled as duplicate-free
lists of set indices; the `IndexCache` is its `Vec` (push/extend at the
back, pop from the back — the separate atomic length that guards the
lock-free `pop_atomic` path is bookkeeping for concurrent use and keeps
the list unchanged on the exclusive paths modelled here). -/

def u32Size : Nat := 2 ^ 32

/-- `Entity` (entity.rs): index and generation. The packed `u64` id reads
the index as the low 32 bits and the generation as the high 32 bits. -/
structure Entity where
  index : Nat
  generation : Nat
deriving DecidableEq, Repr

def Entity.id (e : Entity) : Nat :=
  e.index + e.generation * u32Size

/-- `BitSet::add`. -/
def bsAdd (l : List Nat) (i : Nat) : List Nat :=
  if l.contains i then l else i :: l

/-- `BitSet::remove`: returns whether the bit was set, and the new set. -/
def bsRemove (l : List Nat) (i : Nat) : Bool × List Nat :=
  (l.contains i, l.erase i)

/-- `Entities` (entities.rs lines 25-34). -/
structure Entities where
  alive : List Nat
  raised : List Nat
  killed : List Nat
  cache : List Nat
  generations : List Nat
  maxIndex : Nat
deriving DecidableEq, Repr

def Entities.empty : Entities := ⟨[], [], [], [], [], 0⟩

/-- `Entities::update_generations` (entities.rs lines 183-187):
`generations.resize(index + 1, 0)` when too short. -/
def updateGenerations (gens : List Nat) (index : Nat) : List Nat :=
  if gens.length ≤ index then gens ++ List.replicate (index + 1 - gens.length) 0 else gens

/-- `Entities::is_alive` (entities.rs lines 145-155). -/
def isAlive (s : Entities) (e : Entity) : Bool :=
  match s.generations.get? e.index with
  | some g =>
    if s.raised.contains e.index then e.generation == (g + 1) % u32Size
    else s.alive.contains e.index && e.generation == g
  | none => if s.raised.contains e.index then e.generation == 0 else false

/-- `Entities::allocate` (entities.rs lines 38-54): pop a cached free
index (LIFO) or extend the index space; `checked_add` panics on u32
exhaustion, modelled as `none`. Then grow `generations` if needed, mark
alive, bump the stored generation (wrapping) and return the entity. -/
def allocate (s : Entities) : Option (Entity × Entities) :=
  let popped : Option (Nat × Entities) :=
    match s.cache.getLast? with
    | some i => some (i, { s with cache := s.cache.dropLast })
    | none =>
      if s.maxIndex + 1 < u32Size then
        some (s.maxIndex + 1, { s with maxIndex := s.maxIndex + 1 })
      else none
  match popped with
  | none => none
  | some (index, s) =>
    let gens := updateGenerations s.generations index
    let g := ((gens.get? index).getD 0 + 1) % u32Size
    some (⟨index, g⟩,
      { s with
        generations := gens.set index g
        alive := bsAdd s.alive index })

/-- The per-entity body of the `Entities::kill` loop (entities.rs lines
108-118), applied after the aliveness check passed: unmark alive, clear a
pending atomic kill, grow `generations`, and—if an atomic raise was
pending—consume it by bumping the stored generation. -/
def killOne (s : Entities) (e : Entity) : Entities :=
  let index := e.index
  let alive := (bsRemove s.alive index).2
  let killed := (bsRemove s.killed index).2
  let gens := updateGenerations s.generations index
  let raisedR := bsRemove s.raised index
  let gens :=
    if raisedR.1 then gens.set index (((gens.get? index).getD 0 + 1) % u32Size) else gens
  { s with alive := alive, killed := killed, raised := raisedR.2, generations := gens }

/-- The loop of `Entities::kill` (entities.rs lines 100-119): stop at the
first entity that is not alive when reached, returning it. -/
def killLoop (s : Entities) (l : List Entity) : Entities × Option Entity :=
  match l with
  | [] => (s, none)
  | e :: rest => if isAlive s e then killLoop (killOne s e) rest else (s, some e)

/-- `Entities::kill` (entities.rs lines 99-124). On success the whole
slice's indices are appended to the free-index cache
(`self.cache.extend(delete.iter().map(Entity::index))`); on the error path
the function returns before reaching that line, with
`Err(Error::EntityIsDead { id: entity.id(), .. })` carrying the packed id
of the offending entity. -/
def kill (s : Entities) (delete : List Entity) : Entities × Option Nat :=
  match killLoop s delete with
  | (s, some e) => (s, some e.id)
  | (s, none) => ({ s with cache := s.cache ++ delete.map Entity.index }, none)

/- ## Masked component storage (src/storage/masked_storage.rs,
src/storage/storage_wrapper.rs)

The unchecked backing store (`T::Storage`) is modelled as an association
list from index to value. Its `get`/`remove` are only ever called by
`MaskedStorage` on masked indices, where the list is guaranteed to hold
the key; the model totalizes those unsafe accesses with `alookup`. -/

/-- Backing-store write: in-place overwrite through `get_mut` when the key
exists (the `swap` in `MaskedStorage::insert`), plain `insert` otherwise. -/
def setAssoc {α : Type} : List (Nat × α) → Nat → α → List (Nat × α)
  | [], i, v => [(i, v)]
  | (k, w) :: rest, i, v =>
    if k = i then (i, v) :: rest else (k, w) :: setAssoc rest i v

/-- Backing-store `remove`'s effect on the stored entries. -/
def eraseAssoc {α : Type} (l : List (Nat × α)) (i : Nat) : List (Nat × α) :=
  l.filter fun kv => kv.1 ≠ i

/-- `MaskedStorage` (masked_storage.rs lines 13-16). -/
structure MaskedStorage (α : Type) where
  mask : List Nat
  inner : List (Nat × α)
deriving DecidableEq, Repr

/-- `MaskedStorage::insert` (masked_storage.rs lines 43-56): when the
index is masked, swap the new component into the backing slot and return
the previous value; otherwise add the mask bit and store the value. -/
def MaskedStorage.insert {α : Type} (s : MaskedStorage α) (entity : Entity) (c : α) :
    MaskedStorage α × Option α :=
  let index := entity.index
  if s.mask.contains index then
    ({ s with inner := setAssoc s.inner index c }, alookup s.inner index)
  else
    ({ mask := bsAdd s.mask index, inner := setAssoc s.inner index c }, none)

/-- `MaskedStorage::remove` (masked_storage.rs lines 66-72): keyed on
whether `mask.remove` found the bit. -/
def MaskedStorage.remove {α : Type} (s : MaskedStorage α) (index : Nat) :
    MaskedStorage α × Option α :=
  let maskR := bsRemove s.mask index
  if maskR.1 then
    ({ mask := maskR.2, inner := eraseAssoc s.inner index }, alookup s.inner index)
  else (s, none)

/-- `StorageWrapper` (storage_wrapper.rs lines 20-24): the masked storage
plus the fetched `Entities` handle used for liveness checks. -/
structure StorageWrapper (α : Type) where
  data : MaskedStorage α
  entities : Entities
deriving DecidableEq, Repr

/-- `StorageWrapper::get` (storage_wrapper.rs lines 50-58). -/
def StorageWrapper.get {α : Type} (s : StorageWrapper α) (e : Entity) : Option α :=
  if s.data.mask.contains e.index && isAlive s.entities e then
    alookup s.data.inner e.index
  else none

/-- `StorageWrapper::insert` (storage_wrapper.rs lines 113-119):
`Err(Error::EntityIsNotAlive(entity))` for a dead entity, otherwise the
masked insert. The updated wrapper is returned alongside. -/
def StorageWrapper.insert {α : Type} (s : StorageWrapper α) (e : Entity) (c : α) :
    StorageWrapper α × Except Entity (Option α) :=
  if isAlive s.entities e then
    let r := s.data.insert e c
    ({ s with data := r.1 }, Except.ok r.2)
  else (s, Except.error e)

/-- `StorageWrapper::remove` (storage_wrapper.rs lines 122-129). -/
def StorageWrapper.remove {α : Type} (s : StorageWrapper α) (e : Entity) :
    StorageWrapper α × Option α :=
  if isAlive s.entities e then
    let r := s.data.remove e.index
    ({ s with data := r.1 }, r.2)
  else (s, none)

/- ## Join algebra (src/join/mod.rs, src/join/iter.rs, src/join/impls.rs,
src/join/maybe.rs, src/misc/bit_and.rs)

The hierarchical bitset collaborator is opaque in the source; the model
keeps its three shapes relevant to joins: a concrete `BitSet` (a finite
list of set bits, kept sorted by the callers below), `BitSetAll`, and the
lazy `BitSetAnd` produced by `bitset_and!`. `BitIter` yields the set bits
in ascending order; `HBitSet.iter` reproduces that enumeration for every
mask whose population is bounded by a concrete `bits` constituent — a
bare `BitSetAll` would iterate every index (the unbounded all-`maybe`
hazard the source warns about) and is out of scope of the claims. -/

inductive HBitSet where
  | bits (l : List Nat)
  | all
  | band (a b : HBitSet)
deriving DecidableEq, Repr

/-- `BitSetLike::contains` for the three shapes. -/
def HBitSet.contains : HBitSet → Nat → Bool
  | .bits l, i => l.contains i
  | .all, _ => true
  | .band a b, i => a.contains i && b.contains i

/-- An exclusive upper bound on the population of the finite
constituents. -/
def HBitSet.bound : HBitSet → Nat
  | .bits l => l.foldr Nat.max 0 + 1
  | .all => 0
  | .band a b => Nat.max a.bound b.bound

/-- `BitIter`: the set bits in ascending order. -/
def HBitSet.iter (m : HBitSet) : List Nat :=
  (List.range m.bound).filter m.contains

/-- The result of `Join::open`: the mask plus the per-index accessor
(`Join::get`). -/
structure Opened (α : Type) where
  mask : HBitSet
  get : Nat → α

/-- `define_tuple_join! { A, B }` (impls.rs lines 12-55) with
`bitset_and! { A, B }` (bit_and.rs lines 22-41): the pair's mask is
`BitSetAnd` of the parts and `get` pairs the parts' `get`s. -/
def openPair {α β : Type} (a : Opened α) (b : Opened β) : Opened (α × β) :=
  ⟨.band a.mask b.mask, fun i => (a.get i, b.get i)⟩

/-- `impl Join for MaybeJoin` (maybe.rs lines 20-45): the mask becomes
`BitSetAll`; `get` checks the wrapped mask and yields `Option`. -/
def openMaybe {α : Type} (a : Opened α) : Opened (Option α) :=
  ⟨.all, fun i => if a.mask.contains i then some (a.get i) else none⟩

/-- `JoinIter` (iter.rs lines 11-96) collected into a list: iterate the
opened mask's bits in ascending order and fetch each item. -/
def joinList {α : Type} (o : Opened α) : List α :=
  o.mask.iter.map o.get

/- ## Lazy update queue (src/world/lazy.rs)

`Lazy::maintain` (lazy.rs lines 254-261), the first step of
`World::maintain` (world/mod.rs lines 87-102), is
`while let Some(update) = self.queue.pop() { run update }` over a FIFO
queue: updates pushed by a running update land at the tail and are drained
in the same pass. Updates are modelled by ids; `enq` maps an update to the
updates its execution pushes. The `fuel` argument only bounds the modelled
number of loop iterations (the source loop is unbounded and the source
itself notes the re-enqueue non-termination hazard): `none` means the
drain did not finish within `fuel` steps, `some trace` is the exact
execution order of a drain that finished. -/

def lazyMaintain (enq : Nat → List Nat) : Nat → List Nat → Option (List Nat)
  | _, [] => some []
  | 0, _ :: _ => none
  | fuel + 1, u :: rest => (lazyMaintain enq fuel (rest ++ enq u)).map fun t => u :: t

/- ## Specification-side auxiliary definitions

These are not translations of further source code; they only name the
states and conditions the theorems below talk about. -/

/-- The state reached by applying the kill-loop body to every entity of a
list in order. -/
def killFold (s : Entities) (l : List Entity) : Entities :=
  l.foldl killOne s

/-- Every entity of the list is alive at the moment the kill loop reaches
it (earlier kills of the same batch already applied). -/
def seqAlive (s : Entities) (l : List Entity) : Bool :=
  match l with
  | [] => true
  | e :: rest => isAlive s e && seqAlive (killOne s e) rest

/-- Index `i` is dead for every generation: neither in the alive bitset
nor pending in the raised buffer. -/
def deadIdx (s : Entities) (i : Nat) : Prop :=
  i ∉ s.alive ∧ i ∉ s.raised

/-- Registration step of the five-unit scenario: `add` with no explicit
dependencies, keeping the resulting builder. -/
def addOk (b : Builder) (name : String) (reads writes : List Nat) : Builder :=
  (addInner b name [] reads writes).1

/-- Stages of the five-unit scenario of the dependency-minimization claim
(resource ids: A = 0, B = 1, C = 2, D = 3), registered in order. -/
def depS1 : Builder := addOk Builder.empty "sys1" [0] [1]

def depS2 : Builder := addOk depS1 "sys2" [0] [2]

def depS3 : Builder := addOk depS2 "sys3" [1] [3]

def depS4 : Builder := addOk depS3 "sys4" [2] [3]

def depScenario : Builder := addOk depS4 "sys5" [0] [1, 2, 3]

/-- A concrete registry with entities (1,1) and (2,1) alive (used to
instantiate the storage theorems). -/
def entsTwoAlive : Entities := ⟨[1, 2], [], [], [], [0, 1, 1], 2⟩

/-- A concrete wrapper over `entsTwoAlive` with a component stored at
index 1 only. -/
def c8W : StorageWrapper Nat := ⟨⟨[1], [(1, 10)]⟩, entsTwoAlive⟩

/-- A concrete wrapper whose entity (1,1) is dead while its index 1 is
still masked with a stored component. -/
def c10W : StorageWrapper Nat := ⟨⟨[1], [(1, 99)]⟩, ⟨[], [], [], [], [0, 1], 1⟩⟩

/-- A concrete registry with entities (1,1) and (2,1) alive (used to
instantiate the kill-batch theorem). -/
def c5W : Entities := ⟨[1, 2], [], [], [], [0, 1, 1], 2⟩

/-- A concrete registry with entity (1,1) alive (used to instantiate the
generation-uniqueness theorem). -/
def c9W : Entities := ⟨[1], [], [], [], [0, 1], 1⟩

/- ## Shared lemmas -/

theorem alookup_append_self {α β : Type} [DecidableEq α] (l : List (α × β)) (k : α) (v : β)
    (h : alookup l k = none) : alookup (l ++ [(k, v)]) k = some v := by
  induction l with
  | nil => simp [alookup]
  | cons kv rest ih =>
    simp only [alookup] at h ⊢
    by_cases hk : kv.1 = k
    · rw [if_pos hk] at h
      exact absurd h (by simp)
    · rw [if_neg hk] at h ⊢
      exact ih h

theorem alookup_setAssoc_self {α : Type} (l : List (Nat × α)) (i : Nat) (v : α) :
    alookup (setAssoc l i v) i = some v := by
  induction l with
  | nil => simp [setAssoc, alookup]
  | cons kv rest ih =>
    by_cases hk : kv.1 = i
    · simp [setAssoc, alookup, hk]
    · simp [setAssoc, alookup, hk, ih]

theorem refDrop_eq (flag : Nat) (h1 : 1 ≤ flag) (h2 : flag ≤ usizeMax) :
    refDrop flag = flag - 1 := by
  unfold refDrop usizeSize
  unfold usizeMax at h2
  norm_num at h2 ⊢
  omega

theorem refClone_eq (flag : Nat) (h : flag < usizeMax) : refClone flag = flag + 1 := by
  unfold refClone usizeSize
  unfold usizeMax at h
  norm_num at h ⊢
  omega

theorem borrowN_eq (n : Nat) (h : n ≤ usizeMax) : borrowN n = some n := by
  induction n with
  | zero => rfl
  | succ n ih =>
    have hn : n ≠ usizeMax := by omega
    have h3 := ih (by omega)
    unfold borrowN at h3 ⊢
    rw [Function.iterate_succ_apply', h3]
    simp [cellBorrow, checkFlagRead, hn]

theorem dropN_eq (n : Nat) : ∀ flag, n ≤ flag → flag ≤ usizeMax → dropN n flag = flag - n := by
  induction n with
  | zero => intro flag _ _; rfl
  | succ n ih =>
    intro flag h1 h2
    have hd : refDrop flag = flag - 1 := refDrop_eq flag (by omega) h2
    have h3 := ih (flag - 1) (by omega) (by omega)
    unfold dropN at h3 ⊢
    rw [Function.iterate_succ_apply, hd, h3]
    omega

theorem succ_mod_ne (g : Nat) : (g + 1) % u32Size ≠ g := by
  have h32 : u32Size = 4294967296 := by norm_num [u32Size]
  rw [h32]
  omega

theorem bsAdd_mem_self (l : List Nat) (i : Nat) : i ∈ bsAdd l i := by
  by_cases h : i ∈ l
  · simp [bsAdd, h]
  · simp [bsAdd, h]

theorem listGetSet {α : Type} (l : List α) (n : Nat) (a : α) (h : n < l.length) :
    (l.set n a).get? n = some a := by
  rw [List.get?_eq_getElem?]
  exact List.getElem?_set_eq_of_lt a h

theorem updateGenerations_of_lt (gens : List Nat) (i : Nat) (h : i < gens.length) :
    updateGenerations gens i = gens := by
  unfold updateGenerations
  rw [if_neg (by omega)]

theorem killOne_cache (s : Entities) (e : Entity) : (killOne s e).cache = s.cache := rfl

theorem killOne_alive (s : Entities) (e : Entity) :
    (killOne s e).alive = s.alive.erase e.index := rfl

theorem killOne_raised (s : Entities) (e : Entity) :
    (killOne s e).raised = s.raised.erase e.index := rfl

theorem killFold_cons (s : Entities) (e : Entity) (rest : List Entity) :
    killFold s (e :: rest) = killFold (killOne s e) rest := rfl

theorem killFold_cache (l : List Entity) : ∀ s : Entities, (killFold s l).cache = s.cache := by
  induction l with
  | nil => intro s; rfl
  | cons e rest ih =>
    intro s
    rw [killFold_cons, ih (killOne s e), killOne_cache]

theorem killLoop_of_seqAlive (l : List Entity) : ∀ s : Entities, seqAlive s l = true →
    killLoop s l = (killFold s l, none) := by
  induction l with
  | nil => intro s _; rfl
  | cons e rest ih =>
    intro s h
    rw [seqAlive] at h
    rw [Bool.and_eq_true] at h
    rw [killLoop, if_pos h.1, killFold_cons]
    exact ih (killOne s e) h.2

theorem killLoop_err (l : List Entity) : ∀ (s : Entities) (k : Nat) (hk : k < l.length),
    seqAlive s (l.take k) = true →
    isAlive (killFold s (l.take k)) (l.get ⟨k, hk⟩) = false →
    killLoop s l = (killFold s (l.take k), some (l.get ⟨k, hk⟩)) := by
  induction l with
  | nil =>
    intro s k hk
    exact absurd hk (by simp)
  | cons e rest ih =>
    intro s k hk hseq hdead
    match k with
    | 0 =>
      have hd : isAlive s e = false := by simpa [killFold] using hdead
      rw [killLoop, if_neg (by rw [hd]; exact Bool.false_ne_true)]
      simp [killFold]
    | k' + 1 =>
      rw [List.take_succ_cons, seqAlive, Bool.and_eq_true] at hseq
      rw [List.take_succ_cons, killFold_cons] at hdead
      rw [killLoop, if_pos hseq.1, List.take_succ_cons, killFold_cons]
      exact ih (killOne s e) k' (by simpa using hk) hseq.2 hdead

theorem deadIdx_isAlive_false (s : Entities) (e : Entity) (h : deadIdx s e.index) :
    isAlive s e = false := by
  obtain ⟨ha, hr⟩ := h
  simp only [isAlive]
  rcases hg : s.generations.get? e.index with _ | g0
  · simp [hr]
  · simp [hr, ha]

theorem killOne_deadIdx_self (s : Entities) (e : Entity) (hna : s.alive.Nodup)
    (hnr : s.raised.Nodup) : deadIdx (killOne s e) e.index := by
  rw [deadIdx, killOne_alive, killOne_raised]
  rw [List.Nodup.mem_erase_iff hna, List.Nodup.mem_erase_iff hnr]
  simp

theorem killOne_deadIdx_pres (s : Entities) (e : Entity) (i : Nat) (h : deadIdx s i) :
    deadIdx (killOne s e) i := by
  rw [deadIdx, killOne_alive, killOne_raised]
  exact ⟨fun hm => h.1 (List.mem_of_mem_erase hm),
    fun hm => h.2 (List.mem_of_mem_erase hm)⟩

theorem killFold_deadIdx_pres (l : List Entity) : ∀ (s : Entities) (i : Nat), deadIdx s i →
    deadIdx (killFold s l) i := by
  induction l with
  | nil => intro s i h; exact h
  | cons e rest ih =>
    intro s i h
    rw [killFold_cons]
    exact ih (killOne s e) i (killOne_deadIdx_pres s e i h)

theorem killFold_dead (l : List Entity) : ∀ s : Entities, s.alive.Nodup → s.raised.Nodup →
    seqAlive s l = true → ∀ e ∈ l, deadIdx (killFold s l) e.index := by
  induction l with
  | nil =>
    intro s _ _ _ e he
    exact absurd he (List.not_mem_nil e)
  | cons x rest ih =>
    intro s hna hnr hseq e he
    rw [seqAlive, Bool.and_eq_true] at hseq
    rw [killFold_cons]
    rcases List.mem_cons.mp he with heq | hmem
    · subst heq
      exact killFold_deadIdx_pres rest (killOne s e) e.index
        (killOne_deadIdx_self s e hna hnr)
    · exact ih (killOne s x)
        (by rw [killOne_alive]; exact hna.erase x.index)
        (by rw [killOne_raised]; exact hnr.erase x.index)
        hseq.2 e hmem

/- ## Claim theorems -/

/-- C1: registering five systems with no explicit dependencies and
read/write resource sets ({A},{B}), ({A},{C}), ({B},{D}), ({C},{D}),
({A},{B,C,D}) in that order succeeds at every step and stores the
minimized predecessor sets unit1→{}, unit2→{}, unit3→{unit1},
unit4→{unit2,unit3}, unit5→{unit4}; the computed final-system set is
exactly {unit5}. -/
theorem c1_dependency_minimization :
    (addInner Builder.empty "sys1" [] [0] [1]).2 = none
    ∧ (addInner depS1 "sys2" [] [0] [2]).2 = none
    ∧ (addInner depS2 "sys3" [] [1] [3]).2 = none
    ∧ (addInner depS3 "sys4" [] [2] [3]).2 = none
    ∧ (addInner depS4 "sys5" [] [0] [1, 2, 3]).2 = none
    ∧ depScenario.items =
        [(1, ⟨[0], [1], []⟩), (2, ⟨[0], [2], []⟩), (3, ⟨[1], [3], [1]⟩),
          (4, ⟨[2], [3], [2, 3]⟩), (5, ⟨[0], [1, 2, 3], [4]⟩)]
    ∧ finalSystems depScenario = [5] :=
  ⟨rfl, rfl, rfl, rfl, rfl, rfl, rfl⟩

/-- C6: the code has no special case for the empty name — a first system
registered under the empty name succeeds, but a second `add` under the
empty name fails with `NameAlreadyRegistered`, contradicting the source's
own doc comment on `add`/`with` (an empty name is documented as usable
for systems that need not be referenceable, without conflicting). -/
theorem c6_unnamed_units_conflict :
    (addInner Builder.empty "" [] [] []).2 = none
    ∧ (addInner (addInner Builder.empty "" [] [] []).1 "" [] [] []).2 =
        some (BuildError.nameAlreadyRegistered "") :=
  ⟨rfl, rfl⟩

/-- C3: joining storages masked at {1,2,3} and {2,3,4} yields exactly the
items at indices 2 and 3 in ascending order; joining the first with the
`maybe()`-wrapped second yields items at indices 1, 2, 3 with the second
storage contributing `none` at 1 and `some` at 2 and 3. -/
theorem c3_join_correctness {α β : Type} (ga : Nat → α) (gb : Nat → β) :
    joinList (openPair ⟨.bits [1, 2, 3], ga⟩ ⟨.bits [2, 3, 4], gb⟩) =
      [(ga 2, gb 2), (ga 3, gb 3)]
    ∧ joinList (openPair ⟨.bits [1, 2, 3], ga⟩ (openMaybe ⟨.bits [2, 3, 4], gb⟩)) =
        [(ga 1, none), (ga 2, some (gb 2)), (ga 3, some (gb 3))] :=
  ⟨rfl, rfl⟩

/-- C4: with updates X then Y enqueued and X enqueuing Z during its own
execution, one maintain pass (given enough fuel for its three iterations)
drains the queue until empty and executes exactly X, then Y, then Z. -/
theorem c4_lazy_ordering (enq : Nat → List Nat) (x y z fuel : Nat)
    (hx : enq x = [z]) (hy : enq y = []) (hz : enq z = []) :
    lazyMaintain enq (fuel + 3) [x, y] = some [x, y, z] := by
  simp [lazyMaintain, hx, hy, hz]

theorem c4_lazy_ordering_witness :
    lazyMaintain (fun n => if n = 0 then [2] else []) 3 [0, 1] = some [0, 1, 2] :=
  c4_lazy_ordering (fun n => if n = 0 then [2] else []) 0 1 2 0 rfl rfl rfl

/-- C7 (counterexample): an `add` that fails with `DependencyWasNotFound`
does not leave the builder unchanged — retrying the same add with the
dependency list corrected fails with `NameAlreadyRegistered` instead of
succeeding. -/
theorem c7_counterexample :
    (addInner Builder.empty "a" ["missing"] [] []).2 =
      some (BuildError.dependencyWasNotFound "missing")
    ∧ (addInner (addInner Builder.empty "a" ["missing"] [] []).1 "a" [] [] []).2 =
        some (BuildError.nameAlreadyRegistered "a") :=
  ⟨rfl, rfl⟩

/-- C7 (amended): `DependencyWasNotFound` is a typed, returned error, but
the failed `add` has already registered the unit's name in the name→id
map (under the freshly bumped id), so any retry under the same name —
whatever its dependencies — fails with `NameAlreadyRegistered`. -/
theorem c7_dependency_not_found_keeps_name (b : Builder) (name : String)
    (dependencies : List String) (reads writes : List Nat) (b1 : Builder) (d : String)
    (h : addInner b name dependencies reads writes =
      (b1, some (BuildError.dependencyWasNotFound d))) :
    alookup b1.names name = some (b.nextId + 1)
    ∧ ∀ dependencies' reads' writes',
        (addInner b1 name dependencies' reads' writes').2 =
          some (BuildError.nameAlreadyRegistered name) := by
  simp only [addInner] at h
  rcases hn : alookup b.names name with _ | id0
  · rw [hn] at h
    simp only at h
    rcases hr : resolveDeps (b.names ++ [(name, b.nextId + 1)]) dependencies with n | ids
    · rw [hr] at h
      simp only [Prod.mk.injEq, Option.some.injEq] at h
      have hb1 : b1.names = b.names ++ [(name, b.nextId + 1)] := by
        rw [← h.1]
      have hl : alookup b1.names name = some (b.nextId + 1) := by
        rw [hb1]
        exact alookup_append_self _ _ _ hn
      refine ⟨hl, fun dependencies' reads' writes' => ?_⟩
      simp only [addInner, hl]
    · rw [hr] at h
      simp at h
  · rw [hn] at h
    simp at h

theorem c7_dependency_not_found_keeps_name_witness :
    alookup ((addInner Builder.empty "a" ["missing"] [] []).1).names "a" =
      some (Builder.empty.nextId + 1)
    ∧ (addInner (addInner Builder.empty "a" ["missing"] [] []).1 "a" [] [] []).2 =
        some (BuildError.nameAlreadyRegistered "a") := by
  have h := c7_dependency_not_found_keeps_name Builder.empty "a" ["missing"] [] []
    (addInner Builder.empty "a" ["missing"] [] []).1 "missing" rfl
  exact ⟨h.1, h.2 [] [] []⟩

/-- C2 (counterexample): the 2^64-th shared borrow fails even though no
writer ever held the flag — after 2^64 - 1 successful shared borrows the
flag has reached `usize::MAX`, which doubles as the exclusive-writer
sentinel, so the next `borrow()` panics. -/
theorem c2_counterexample :
    borrowN usizeMax = some usizeMax ∧ borrowN (usizeMax + 1) = none := by
  have h := borrowN_eq usizeMax (le_refl _)
  refine ⟨h, ?_⟩
  unfold borrowN at h ⊢
  rw [Function.iterate_succ_apply', h]
  simp [cellBorrow, checkFlagRead]

/-- C2 (amended): up to `usize::MAX` shared borrows succeed while no
writer holds the flag and leave the flag equal to the number of live
`Ref` guards (cloning a guard increments it); `borrow_mut()` while at
least one shared guard is live panics; every `Ref` drop decrements the
flag by one, so dropping all guards returns it to 0, and a `RefMut` drop
resets it to 0 — after which a borrow of the opposite mode succeeds. The
2^64-th simultaneous shared borrow is the one exception to the claim: the
64-bit flag saturates at the writer sentinel (see the counterexample). -/
theorem c2_borrow_flag_discipline :
    (∀ n, n ≤ usizeMax → borrowN n = some n)
    ∧ (∀ flag, flag < usizeMax → refClone flag = flag + 1)
    ∧ (∀ flag, 1 ≤ flag → cellBorrowMut flag = none)
    ∧ (∀ flag, 1 ≤ flag → flag ≤ usizeMax → refDrop flag = flag - 1)
    ∧ (∀ n, n ≤ usizeMax → dropN n n = 0)
    ∧ (∀ flag, refMutDrop flag = 0)
    ∧ cellBorrowMut (dropN 0 0) = some usizeMax
    ∧ cellBorrow (refMutDrop usizeMax) = some 1 := by
  refine ⟨borrowN_eq, refClone_eq, ?_, refDrop_eq, ?_, fun _ => rfl, rfl, rfl⟩
  · intro flag h
    have hne : flag ≠ 0 := by omega
    simp [cellBorrowMut, checkFlagWrite, hne]
  · intro n h
    have := dropN_eq n n (le_refl _) h
    simpa using this

theorem c2_borrow_flag_discipline_witness :
    borrowN 2 = some 2 ∧ refClone 1 = 2 ∧ cellBorrowMut 1 = none
    ∧ refDrop 2 = 1 ∧ dropN 2 2 = 0 ∧ refMutDrop 5 = 0
    ∧ cellBorrowMut (dropN 0 0) = some usizeMax
    ∧ cellBorrow (refMutDrop usizeMax) = some 1 := by
  have h := c2_borrow_flag_discipline
  exact ⟨h.1 2 (by norm_num [usizeMax]), h.2.1 1 (by norm_num [usizeMax]),
    h.2.2.1 1 (by norm_num), h.2.2.2.1 2 (by norm_num) (by norm_num [usizeMax]),
    h.2.2.2.2.1 2 (by norm_num [usizeMax]), h.2.2.2.2.2.1 5,
    h.2.2.2.2.2.2.1, h.2.2.2.2.2.2.2⟩

/-- C8: for a live entity, inserting at an already-masked index keeps the
mask, overwrites the stored value and returns `Ok(Some(old))` (the
previous value, present by the mask/store invariant); inserting at an
unmasked index adds the mask bit, stores the value and returns
`Ok(None)`; removing an unmasked index is a no-op returning `None`. -/
theorem c8_insert_overwrite_law {α : Type} (s : StorageWrapper α) (e : Entity) (c : α)
    (halive : isAlive s.entities e = true)
    (hsome : s.data.mask.contains e.index = true →
      (alookup s.data.inner e.index).isSome = true) :
    (s.data.mask.contains e.index = true →
      s.insert e c =
        ({ s with data := ⟨s.data.mask, setAssoc s.data.inner e.index c⟩ },
          Except.ok (alookup s.data.inner e.index))
      ∧ (alookup s.data.inner e.index).isSome = true
      ∧ alookup (setAssoc s.data.inner e.index c) e.index = some c)
    ∧ (s.data.mask.contains e.index = false →
        s.insert e c =
          ({ s with data := ⟨bsAdd s.data.mask e.index, setAssoc s.data.inner e.index c⟩ },
            Except.ok none)
        ∧ (bsAdd s.data.mask e.index).contains e.index = true
        ∧ alookup (setAssoc s.data.inner e.index c) e.index = some c)
    ∧ (s.data.mask.contains e.index = false →
        s.data.remove e.index = (s.data, none)) := by
  refine ⟨fun hm => ⟨?_, hsome hm, alookup_setAssoc_self _ _ _⟩,
    fun hm => ⟨?_, ?_, alookup_setAssoc_self _ _ _⟩, fun hm => ?_⟩
  · have hm2 : e.index ∈ s.data.mask := by simpa using hm
    simp [StorageWrapper.insert, halive, MaskedStorage.insert, hm2]
  · have hm2 : e.index ∉ s.data.mask := by simpa using hm
    simp [StorageWrapper.insert, halive, MaskedStorage.insert, hm2]
  · have hm2 : e.index ∉ s.data.mask := by simpa using hm
    simp [bsAdd, hm2]
  · have hm2 : e.index ∉ s.data.mask := by simpa using hm
    simp [MaskedStorage.remove, bsRemove, hm2]

theorem c8_insert_overwrite_law_witness :
    c8W.insert ⟨1, 1⟩ 20 = ({ c8W with data := ⟨[1], [(1, 20)]⟩ }, Except.ok (some 10))
    ∧ c8W.insert ⟨2, 1⟩ 30 =
        ({ c8W with data := ⟨[2, 1], [(1, 10), (2, 30)]⟩ }, Except.ok none)
    ∧ c8W.data.remove 2 = (c8W.data, none) := by
  refine ⟨?_, ?_, ?_⟩
  · exact ((c8_insert_overwrite_law c8W ⟨1, 1⟩ 20 (by decide) (by decide)).1 (by decide)).1
  · exact (((c8_insert_overwrite_law c8W ⟨2, 1⟩ 30 (by decide) (by decide)).2).1 (by decide)).1
  · exact (((c8_insert_overwrite_law c8W ⟨2, 1⟩ 30 (by decide) (by decide)).2).2 (by decide))

/-- C10: for an entity that is not alive, `StorageWrapper::remove` returns
`None` and leaves the wrapper (mask, backing store and all) unchanged —
even when the mask still contains the entity's index — and
`StorageWrapper::get` returns `None` without touching the backing store. -/
theorem c10_dead_entity_storage_noop {α : Type} (s : StorageWrapper α) (e : Entity)
    (h : isAlive s.entities e = false) :
    s.remove e = (s, none) ∧ s.get e = none := by
  constructor
  · simp [StorageWrapper.remove, h]
  · simp [StorageWrapper.get, h]

theorem c10_dead_entity_storage_noop_witness :
    c10W.remove ⟨1, 1⟩ = (c10W, none) ∧ c10W.get ⟨1, 1⟩ = none :=
  c10_dead_entity_storage_noop c10W ⟨1, 1⟩ (by decide)

/-- C9: in any registry state, two live entities with the same index are
the same entity (for a fixed index at most one generation is alive); and
after killing a live entity `e` in a state with no pending atomic raises,
the next `allocate` reuses `e`'s index (the free-index cache is LIFO) and
returns an entity with the generation incremented by one (mod 2^32), for
which `is_alive` answers false on the old entity value and true on the
new one. -/
theorem c9_generation_uniqueness :
    (∀ (s : Entities) (e1 e2 : Entity), isAlive s e1 = true → isAlive s e2 = true →
      e1.index = e2.index → e1 = e2)
    ∧ (∀ (s : Entities) (e : Entity), s.raised = [] → isAlive s e = true →
        (kill s [e]).2 = none
        ∧ ∃ e2 s2, allocate (kill s [e]).1 = some (e2, s2)
            ∧ e2.index = e.index
            ∧ e2.generation = (e.generation + 1) % u32Size
            ∧ isAlive s2 e = false
            ∧ isAlive s2 e2 = true) := by
  constructor
  · rintro s ⟨i1, g1⟩ ⟨i2, g2⟩ h1 h2 hidx
    simp only [Entity.index] at hidx
    subst hidx
    simp only [isAlive, Entity.index, Entity.generation] at h1 h2
    rcases hg : s.generations.get? i1 with _ | g <;> rw [hg] at h1 h2
    · by_cases hrc : i1 ∈ s.raised
      · simp [hrc] at h1 h2
        simp [h1, h2]
      · simp [hrc] at h1
    · by_cases hrc : i1 ∈ s.raised
      · simp [hrc] at h1 h2
        simp [h1, h2]
      · simp [hrc] at h1 h2
        simp [h1.2, h2.2]
  · intro s e hr ha0
    have hrc : s.raised.contains e.index = false := by rw [hr]; rfl
    rcases hg : s.generations.get? e.index with _ | g
    · have ha2 := ha0
      simp only [isAlive, hg, hrc] at ha2
      simp at ha2
    · have hgen : e.generation = g := by
        have ha2 := ha0
        simp only [isAlive, hg, hrc] at ha2
        simp at ha2
        exact ha2.2
      have hlen : e.index < s.generations.length := by
        have h2 := List.get?_eq_some.mp hg
        exact h2.choose
      have hupd : updateGenerations s.generations e.index = s.generations :=
        updateGenerations_of_lt _ _ hlen
      have hloop : killLoop s [e] = (killOne s e, none) := by
        simp [killLoop, ha0]
      have hko : killOne s e =
          ⟨s.alive.erase e.index, [], s.killed.erase e.index,
            s.cache, s.generations, s.maxIndex⟩ := by
        simp [killOne, bsRemove, hr, hupd]
      have hkill : kill s [e] =
          (⟨s.alive.erase e.index, [], s.killed.erase e.index,
            s.cache ++ [e.index], s.generations, s.maxIndex⟩, none) := by
        rw [kill, hloop, hko]
        simp
      refine ⟨by rw [hkill], ⟨e.index, (g + 1) % u32Size⟩,
        ⟨bsAdd (s.alive.erase e.index) e.index, [], s.killed.erase e.index,
          s.cache, s.generations.set e.index ((g + 1) % u32Size), s.maxIndex⟩,
        ?_, rfl, by rw [Entity.generation, hgen], ?_, ?_⟩
      · rw [hkill]
        simp only [allocate, List.getLast?_concat, List.dropLast_concat, hupd, hg]
        rfl
      · have hne : (e.generation == (g + 1) % u32Size) = false := by
          rw [hgen]
          exact beq_eq_false_iff_ne.mpr fun hh => succ_mod_ne g hh.symm
        simp only [isAlive]
        rw [listGetSet _ _ _ hlen]
        simp [hne]
      · simp only [isAlive, Entity.index, Entity.generation]
        rw [listGetSet _ _ _ hlen]
        simp [bsAdd_mem_self]

/-- C5 (counterexample): a slice in which every listed entity is alive can
still make the batch `kill` return `Err(EntityIsDead)` — a duplicated
entity is alive when the slice is submitted, killed at its first
occurrence, and found dead at its second. -/
theorem c5_counterexample :
    isAlive c5W ⟨1, 1⟩ = true
    ∧ (kill c5W [⟨1, 1⟩, ⟨1, 1⟩]).2 = some ((⟨1, 1⟩ : Entity).id) :=
  ⟨rfl, rfl⟩

/-- C5 (amended): the batch kill processes the slice in order and aborts
at the first entity that is not alive *at the moment it is processed*
(earlier kills of the same batch already applied — for a duplicate-free
slice this coincides with pre-state aliveness). On that error path the
returned error carries the offending entity's id, the result state is
exactly the fold of the per-entity kill over the preceding prefix (so no
entity at or after the failing position is marked dead) and the
free-index cache is untouched. If every entity is alive when processed,
kill returns `Ok`, applies the per-entity kill to each, leaves every
listed entity dead, and appends all the slice's indices to the free-index
cache. The `Nodup` hypotheses are the bitset representation invariant of
the `alive` and `raised` sets. -/
theorem c5_kill_batch (s : Entities) (delete : List Entity)
    (hna : s.alive.Nodup) (hnr : s.raised.Nodup) :
    (seqAlive s delete = true →
      kill s delete =
        ({ killFold s delete with cache := s.cache ++ delete.map Entity.index }, none)
      ∧ ∀ e ∈ delete, isAlive (kill s delete).1 e = false)
    ∧ (∀ (k : Nat) (hk : k < delete.length), seqAlive s (delete.take k) = true →
        isAlive (killFold s (delete.take k)) (delete.get ⟨k, hk⟩) = false →
        kill s delete = (killFold s (delete.take k), some ((delete.get ⟨k, hk⟩).id))
        ∧ (killFold s (delete.take k)).cache = s.cache) := by
  constructor
  · intro hseq
    have hloop := killLoop_of_seqAlive delete s hseq
    have hc := killFold_cache delete s
    have hkill : kill s delete =
        ({ killFold s delete with cache := s.cache ++ delete.map Entity.index }, none) := by
      rw [kill, hloop]
      simp [hc]
    refine ⟨hkill, fun e he => ?_⟩
    rw [hkill]
    exact deadIdx_isAlive_false _ e (killFold_dead delete s hna hnr hseq e he)
  · intro k hk hseq hdead
    have hloop := killLoop_err delete s k hk hseq hdead
    constructor
    · rw [kill, hloop]
    · exact killFold_cache _ s

theorem c5_kill_batch_witness :
    kill c5W [⟨1, 1⟩, ⟨2, 1⟩] =
      (⟨[], [], [], [1, 2], [0, 1, 1], 2⟩, none)
    ∧ isAlive (kill c5W [⟨1, 1⟩, ⟨2, 1⟩]).1 ⟨1, 1⟩ = false
    ∧ kill c5W [⟨1, 1⟩, ⟨1, 1⟩] =
        (⟨[2], [], [], [], [0, 1, 1], 2⟩, some ((⟨1, 1⟩ : Entity).id))
    ∧ (killFold c5W ([⟨1, 1⟩, ⟨1, 1⟩].take 1)).cache = c5W.cache := by
  have hok := (c5_kill_batch c5W [⟨1, 1⟩, ⟨2, 1⟩] (by decide) (by decide)).1 (by decide)
  have herr := (c5_kill_batch c5W [⟨1, 1⟩, ⟨1, 1⟩] (by decide) (by decide)).2 1
    (by decide) (by decide) (by decide)
  exact ⟨hok.1, hok.2 ⟨1, 1⟩ (by decide), herr.1, herr.2⟩

theorem c9_generation_uniqueness_witness :
    (kill c9W [⟨1, 1⟩]).2 = none
    ∧ ∃ e2 s2, allocate (kill c9W [⟨1, 1⟩]).1 = some (e2, s2)
        ∧ e2.index = (1 : Nat)
        ∧ e2.generation = (1 + 1) % u32Size
        ∧ isAlive s2 ⟨1, 1⟩ = false
        ∧ isAlive s2 e2 = true :=
  c9_generation_uniqueness.2 c9W ⟨1, 1⟩ rfl (by decide)

end AsyncEcs
